import Mathlib

/-!
Verification of the USDT reward bot (`src/bot.py`).

Shallow embedding conventions:
* Monetary values (`Decimal` in the source) are modelled as `ℚ`; the amounts
  involved (5, 25, 10, 100, 13 and admin-supplied decimals) are exact in
  `Decimal` arithmetic, so `ℚ` addition/subtraction/comparison is faithful.
* Timestamps (`datetime`) are modelled as `Int` seconds; `timedelta(minutes=5)`
  is 300 and `timedelta(days=1)` is 86400.  Python compares timestamps with
  strict `<`, which is kept.
* The Postgres `users` table and the `TTLCache` are modelled as total functions
  from `user_id` to optional rows / entries.  The `TTLCache` capacity bound
  (maxsize=10000, LRU eviction) is not modelled: every claim below touches at
  most two distinct keys.
* Python dicts are reference values: the dict returned by `get_user` is the
  very object stored in the cache, so a handler's in-place `update` is visible
  in the cache immediately.  This aliasing is modelled explicitly
  (`cacheAliasUpdate`).
-/

namespace USDTBot

/-- Account record, one per user: the Python dict built in `start` /
`get_user` and persisted by `save_user` (columns of the `users` table).
`referrals` is the SQL INTEGER referral count. -/
structure UserData where
  user_id : String
  username : String
  balance : ℚ
  total_earned : ℚ
  referrals : Int
  referred_by : Option String
  last_claim : Int
  last_daily : Int
  wallet : Option String
  join_date : Int
  deriving Repr, DecidableEq

/-! The reward schedule, from the module-level `REWARDS` dict of `bot.py`
and the `timedelta` literals in the handlers. -/

def claim_amount : ℚ := 5
def daily_amount : ℚ := 25
def referral_amount : ℚ := 10
def min_withdraw : ℚ := 100
def network_fee : ℚ := 13
def min_referrals : Int := 10
/-- Python `timedelta(minutes=5)` in seconds. -/
def claim_window : Int := 300
/-- Python `timedelta(days=1)` in seconds. -/
def daily_window : Int := 86400

/-- Result of a cooldown-gated reward attempt: either rejected with the
remaining cooldown time (seconds), or accepted with the updated account. -/
inductive ClaimResult where
  | rejected (remaining : Int)
  | accepted (newUser : UserData)
  deriving Repr, DecidableEq

/-- Core of `USDTBot.handle_claim` (bot.py lines 335-388): if
`now - last_claim < timedelta(minutes=5)` report the time left and change
nothing, else credit `REWARDS[claim]` to balance and total_earned and stamp
`last_claim = now`. -/
def handle_claim (u : UserData) (now : Int) : ClaimResult :=
  if now - u.last_claim < claim_window then
    .rejected (claim_window - (now - u.last_claim))
  else
    .accepted { u with
      balance := u.balance + claim_amount
      total_earned := u.total_earned + claim_amount
      last_claim := now }

/-- Core of `USDTBot.handle_daily` (bot.py lines 390-446): same shape as
`handle_claim` with `REWARDS[daily]`, a 24-hour window and `last_daily`. -/
def handle_daily (u : UserData) (now : Int) : ClaimResult :=
  if now - u.last_daily < daily_window then
    .rejected (daily_window - (now - u.last_daily))
  else
    .accepted { u with
      balance := u.balance + daily_amount
      total_earned := u.total_earned + daily_amount
      last_daily := now }

/-- C1: claim attempts strictly inside the 5-minute window are rejected with
the remaining time and mutate nothing; otherwise they succeed, crediting
`claim_amount` to balance and total_earned and stamping `last_claim = now`
while leaving every other field unchanged.  The daily operation satisfies the
same property with `daily_amount`, a 24-hour window and `last_daily`. -/
theorem claim_and_daily_cooldown_correct (u : UserData) (now : Int) :
    (now - u.last_claim < claim_window →
      handle_claim u now = .rejected (claim_window - (now - u.last_claim))) ∧
    (claim_window ≤ now - u.last_claim →
      ∃ v, handle_claim u now = .accepted v ∧
        v.balance = u.balance + claim_amount ∧
        v.total_earned = u.total_earned + claim_amount ∧
        v.last_claim = now ∧
        v.last_daily = u.last_daily ∧ v.referrals = u.referrals ∧
        v.referred_by = u.referred_by ∧ v.wallet = u.wallet ∧
        v.join_date = u.join_date ∧ v.user_id = u.user_id) ∧
    (now - u.last_daily < daily_window →
      handle_daily u now = .rejected (daily_window - (now - u.last_daily))) ∧
    (daily_window ≤ now - u.last_daily →
      ∃ v, handle_daily u now = .accepted v ∧
        v.balance = u.balance + daily_amount ∧
        v.total_earned = u.total_earned + daily_amount ∧
        v.last_daily = now ∧
        v.last_claim = u.last_claim ∧ v.referrals = u.referrals ∧
        v.referred_by = u.referred_by ∧ v.wallet = u.wallet ∧
        v.join_date = u.join_date ∧ v.user_id = u.user_id) := by
  refine ⟨fun h => ?_, fun h => ?_, fun h => ?_, fun h => ?_⟩
  · simp [handle_claim, h]
  · exact ⟨{ u with
        balance := u.balance + claim_amount
        total_earned := u.total_earned + claim_amount
        last_claim := now },
      by simp [handle_claim, not_lt.mpr h],
      rfl, rfl, rfl, rfl, rfl, rfl, rfl, rfl, rfl⟩
  · simp [handle_daily, h]
  · exact ⟨{ u with
        balance := u.balance + daily_amount
        total_earned := u.total_earned + daily_amount
        last_daily := now },
      by simp [handle_daily, not_lt.mpr h],
      rfl, rfl, rfl, rfl, rfl, rfl, rfl, rfl, rfl⟩

/-- Witness for C1 at a concrete account and times on both sides of each
window. -/
theorem claim_and_daily_cooldown_correct_witness :
    let u : UserData :=
      { user_id := "1", username := "a", balance := 0, total_earned := 0
        referrals := 0, referred_by := none, last_claim := 0, last_daily := 0
        wallet := none, join_date := 0 }
    handle_claim u 100 = .rejected 200 ∧
    (∃ v, handle_claim u 300 = .accepted v ∧ v.balance = 5) ∧
    handle_daily u 100 = .rejected 86300 ∧
    (∃ v, handle_daily u 86400 = .accepted v ∧ v.balance = 25) := by
  intro u
  refine ⟨(claim_and_daily_cooldown_correct u 100).1 (by decide), ?_, ?_, ?_⟩
  · obtain ⟨v, hv, hb, -⟩ := (claim_and_daily_cooldown_correct u 300).2.1 (by decide)
    exact ⟨v, hv, by rw [hb]; norm_num [claim_amount]⟩
  · exact (claim_and_daily_cooldown_correct u 100).2.2.1 (by decide)
  · obtain ⟨v, hv, hb, -⟩ :=
      (claim_and_daily_cooldown_correct u 86400).2.2.2 (by decide)
    exact ⟨v, hv, by rw [hb]; norm_num [daily_amount]⟩

/-! ## Store, cache and bot state -/

/-- The Postgres `users` table, keyed by `user_id`. -/
abbrev Store := String → Option UserData

/-- An entry of the `cachetools.TTLCache`: the stored dict object together
with its expiry instant (insertion time + ttl). -/
structure CacheEntry where
  val : UserData
  expires : Int
  deriving Repr, DecidableEq

/-- Model of `TTLCache(maxsize=10000, ttl=300)` of `USDTBot.__init__`; the capacity
bound / LRU eviction is not modelled (claims touch at most two keys). -/
abbrev Cache := String → Option CacheEntry

/-- The `ttl=300` argument of the user cache. -/
def cache_ttl : Int := 300

/-- Assignment `self.user_cache[uid] = u`: insert or overwrite with a fresh expiry. -/
def cachePut (c : Cache) (now : Int) (uid : String) (u : UserData) : Cache :=
  fun id => if id = uid then some ⟨u, now + cache_ttl⟩ else c id

/-- Cache lookup at time `now`: cachetools treats an entry as live exactly
when its expiry is strictly in the future (`link.expires > timer()`). -/
def cacheGet (c : Cache) (now : Int) (uid : String) : Option UserData :=
  match c uid with
  | none => none
  | some e => if now < e.expires then some e.val else none

/-- In-place mutation of the dict object held in the cache (Python
`user_data.update(...)` / key assignment, where `user_data` aliases
`self.user_cache[uid]`): the entry's value changes, its TTL bookkeeping does
not, and nothing happens if the key is absent. -/
def cacheAliasUpdate (c : Cache) (uid : String) (u : UserData) : Cache :=
  fun id => if id = uid then (c uid).map (fun e => { e with val := u }) else c id

/-- State of the bot: the database table plus the read-through user cache. -/
structure BotState where
  store : Store
  cache : Cache

/-- The SQL `INSERT ... ON CONFLICT (user_id) DO UPDATE` of `save_user`:
every column of an existing row is replaced except `join_date`, which is
absent from the UPDATE SET list and keeps the pre-existing row's value. -/
def upsertRow (store : Store) (r : UserData) : Store :=
  fun id =>
    if id = r.user_id then
      some (match store r.user_id with
        | none => r
        | some old => { old with
            username := r.username
            balance := r.balance
            total_earned := r.total_earned
            referrals := r.referrals
            last_claim := r.last_claim
            last_daily := r.last_daily
            wallet := r.wallet
            referred_by := r.referred_by })
    else store id

/-- Model of `USDTBot.save_user` (bot.py lines 896-931): upsert the row into the
database, commit, and only then store a copy of the dict into the cache. -/
def save_user (s : BotState) (now : Int) (r : UserData) : BotState :=
  { store := upsertRow s.store r
    cache := cachePut s.cache now r.user_id r }

/-- Model of `USDTBot.get_user` (bot.py lines 861-894): return the cached dict if the
key is live in the cache; otherwise read the row from the database and, on a
hit, cache it before returning it (the returned dict is the cached object).
Returns the value and the updated state. -/
def get_user (s : BotState) (now : Int) (uid : String) : Option UserData × BotState :=
  match cacheGet s.cache now uid with
  | some u => (some u, s)
  | none =>
    match s.store uid with
    | some u => (some u, { s with cache := cachePut s.cache now uid u })
    | none => (none, s)

/-- The claim flow of `handle_message` into `handle_claim` over the bot
state: resolve the user (cache, then store), and on an accepted claim first
perform the in-place `user_data.update` — visible in the cache through
aliasing — and then `save_user`.  A rejected claim, or an unknown user,
mutates no account. -/
def handle_claim_full (s : BotState) (now : Int) (uid : String) : BotState :=
  match get_user s now uid with
  | (none, s1) => s1
  | (some u, s1) =>
    match handle_claim u now with
    | .rejected _ => s1
    | .accepted v => save_user { s1 with cache := cacheAliasUpdate s1.cache uid v } now v

/-- The bot state at the `await self.save_user(user_data)` suspension point
of an accepted claim (bot.py line 374): the in-place `user_data.update` of
line 367 has happened — and is visible in the cache through aliasing — but
nothing has been written to the database yet. -/
def handle_claim_preSave (s : BotState) (now : Int) (uid : String) : BotState :=
  match get_user s now uid with
  | (none, s1) => s1
  | (some u, s1) =>
    match handle_claim u now with
    | .rejected _ => s1
    | .accepted v => { s1 with cache := cacheAliasUpdate s1.cache uid v }

/-! Concrete sample data used by witnesses and counterexamples. -/

/-- A concrete account used in witnesses. -/
def sampleUser : UserData :=
  { user_id := "1", username := "a", balance := 0, total_earned := 0
    referrals := 0, referred_by := none, last_claim := 0, last_daily := 0
    wallet := none, join_date := 0 }

/-- The empty cache. -/
def emptyCache : Cache := fun _ => none

/-- A one-row table holding `sampleUser`. -/
def sampleStore : Store := fun id => if id = "1" then some sampleUser else none

/-! ## C7: idempotence of `save_user` -/

/-- C7: the upsert of `save_user` is idempotent: re-applying the same record
leaves store and cache in the same final state as applying it once, and a
re-application at any later time leaves the store identical and the cache
holding the same record. -/
theorem save_user_idempotent (s : BotState) (now : Int) (r : UserData) :
    save_user (save_user s now r) now r = save_user s now r ∧
    ∀ t, (save_user (save_user s now r) t r).store = (save_user s now r).store ∧
      cacheGet (save_user (save_user s now r) t r).cache t r.user_id = some r := by
  have hstore : upsertRow (upsertRow s.store r) r = upsertRow s.store r := by
    funext k
    by_cases hk : k = r.user_id
    · subst hk
      cases h : s.store r.user_id <;> simp [upsertRow, h]
    · simp [upsertRow, hk]
  have hcache : cachePut (cachePut s.cache now r.user_id r) now r.user_id r
      = cachePut s.cache now r.user_id r := by
    funext k
    by_cases hk : k = r.user_id <;> simp [cachePut, hk]
  refine ⟨?_, fun t => ⟨by simp [save_user, hstore], ?_⟩⟩
  · simp only [save_user]
    rw [hstore, hcache]
  · have hlt : t < t + cache_ttl := by simp only [cache_ttl]; omega
    simp [save_user, cacheGet, cachePut, hlt]

/-! ## C8: cache round trip with TTL -/

/-- C8: a record put into the user cache is returned unchanged by a lookup
strictly before the 300-second TTL elapses; once the TTL has elapsed the
lookup misses, and `get_user` falls through to the database read. -/
theorem cache_roundtrip_ttl (c : Cache) (store : Store) (now t : Int)
    (uid : String) (u : UserData) :
    (t - now < cache_ttl →
      cacheGet (cachePut c now uid u) t uid = some u) ∧
    (cache_ttl ≤ t - now →
      cacheGet (cachePut c now uid u) t uid = none ∧
      (get_user { store := store, cache := cachePut c now uid u } t uid).1
        = store uid) := by
  constructor
  · intro h
    have hlt : t < now + cache_ttl := by simp only [cache_ttl] at h ⊢; omega
    simp [cacheGet, cachePut, hlt]
  · intro h
    have hge : ¬ t < now + cache_ttl := by simp only [cache_ttl] at h ⊢; omega
    have hmiss : cacheGet (cachePut c now uid u) t uid = none := by
      simp [cacheGet, cachePut, hge]
    refine ⟨hmiss, ?_⟩
    simp only [get_user, hmiss]
    cases store uid <;> rfl

/-- Witness for C8 at a concrete record: a hit 100 seconds after the put and
a miss (falling through to the database) exactly 300 seconds after it. -/
theorem cache_roundtrip_ttl_witness :
    cacheGet (cachePut emptyCache 0 "1" sampleUser) 100 "1" = some sampleUser ∧
    cacheGet (cachePut emptyCache 0 "1" sampleUser) 300 "1" = none ∧
    (get_user { store := sampleStore, cache := cachePut emptyCache 0 "1" sampleUser }
        300 "1").1 = sampleStore "1" := by
  refine ⟨(cache_roundtrip_ttl emptyCache sampleStore 0 100 "1" sampleUser).1 (by decide),
    ((cache_roundtrip_ttl emptyCache sampleStore 0 300 "1" sampleUser).2 (by decide)).1,
    ((cache_roundtrip_ttl emptyCache sampleStore 0 300 "1" sampleUser).2 (by decide)).2⟩

/-! ## C2: cache/store write ordering -/

/-- Lookup after an in-place mutation of a live cache entry sees the new
value: the mutation does not touch the TTL bookkeeping. -/
theorem cacheGet_aliasUpdate (c : Cache) (now : Int) (uid : String) (u v : UserData)
    (hu : cacheGet c now uid = some u) :
    cacheGet (cacheAliasUpdate c uid v) now uid = some v := by
  cases he : c uid with
  | none => simp [cacheGet, he] at hu
  | some e =>
    by_cases hlt : now < e.expires
    · simp [cacheGet, cacheAliasUpdate, he, hlt]
    · simp [cacheGet, he, hlt] at hu

/-- C2 counterexample: for a user with a claimable account (`sampleUser`,
last claim at time 0) and an empty cache, the state at the
`await self.save_user` suspension point of a claim at time 400 has the
post-claim record (balance 5) observable in the cache while the database
still holds the old record (balance 0): the `user_data.update` on the dict
aliased with the cache entry updates the cache before any store write. -/
theorem cache_updated_before_store_write :
    cacheGet (handle_claim_preSave { store := sampleStore, cache := emptyCache } 400 "1").cache
        400 "1"
      = some { sampleUser with balance := 5, total_earned := 5, last_claim := 400 } ∧
    (handle_claim_preSave { store := sampleStore, cache := emptyCache } 400 "1").store "1"
      = some sampleUser ∧
    ({ sampleUser with balance := 5, total_earned := 5, last_claim := 400 } : UserData)
      ≠ sampleUser := by
  have hacc : handle_claim sampleUser 400
      = .accepted { sampleUser with balance := 5, total_earned := 5, last_claim := 400 } := by
    simp only [handle_claim, sampleUser, claim_window, claim_amount]
    norm_num
  have hpre : handle_claim_preSave { store := sampleStore, cache := emptyCache } 400 "1"
      = { store := sampleStore,
          cache := cacheAliasUpdate (cachePut emptyCache 400 "1" sampleUser) "1"
            { sampleUser with balance := 5, total_earned := 5, last_claim := 400 } } := by
    unfold handle_claim_preSave get_user
    have hmiss : cacheGet emptyCache 400 "1" = none := rfl
    have hhit : sampleStore "1" = some sampleUser := rfl
    simp only [hmiss, hhit, hacc]
  refine ⟨?_, ?_, ?_⟩
  · rw [hpre]
    simp [cacheGet, cacheAliasUpdate, cachePut, cache_ttl]
  · rw [hpre]
    rfl
  · intro h
    have := congrArg UserData.balance h
    simp [sampleUser] at this

/-- C2 amended: `save_user` itself writes the database first and refreshes
the cache afterwards with the record just written; but the claim handler
mutates the record returned by `get_user` in place, and that record aliases
the cache entry, so on an accepted claim the post-mutation value is already
observable in the cache at the `save_user` suspension point, before any
store write; the store write then follows. -/
theorem cache_alias_mutation_then_store_write
    (s : BotState) (now : Int) (uid : String) (u v : UserData)
    (hu : cacheGet s.cache now uid = some u)
    (hid : u.user_id = uid)
    (hacc : handle_claim u now = .accepted v) :
    cacheGet (handle_claim_preSave s now uid).cache now uid = some v ∧
    (handle_claim_preSave s now uid).store = s.store ∧
    handle_claim_full s now uid = save_user (handle_claim_preSave s now uid) now v ∧
    cacheGet (handle_claim_full s now uid).cache now uid = some v := by
  have hvid : v.user_id = uid := by
    have := hacc
    unfold handle_claim at this
    split at this
    · exact absurd this (by simp)
    · cases this
      simpa using hid
  have hpre : handle_claim_preSave s now uid
      = { s with cache := cacheAliasUpdate s.cache uid v } := by
    unfold handle_claim_preSave get_user
    rw [hu]
    simp only [hacc]
  have hfull : handle_claim_full s now uid
      = save_user { s with cache := cacheAliasUpdate s.cache uid v } now v := by
    unfold handle_claim_full get_user
    rw [hu]
    simp only [hacc]
  refine ⟨?_, ?_, ?_, ?_⟩
  · rw [hpre]
    exact cacheGet_aliasUpdate s.cache now uid u v hu
  · rw [hpre]
  · rw [hfull, hpre]
  · rw [hfull]
    have hlt : now < now + cache_ttl := by simp only [cache_ttl]; omega
    simp [save_user, cacheGet, cachePut, hvid, hlt]

/-- Witness for the amended C2 at a concrete state: a live cache entry for
`sampleUser` and a claim at time 400. -/
theorem cache_alias_mutation_then_store_write_witness :
    cacheGet
        (handle_claim_preSave
          { store := sampleStore, cache := cachePut emptyCache 200 "1" sampleUser }
          400 "1").cache 400 "1"
      = some { sampleUser with balance := 5, total_earned := 5, last_claim := 400 } ∧
    (handle_claim_preSave
        { store := sampleStore, cache := cachePut emptyCache 200 "1" sampleUser }
        400 "1").store
      = ({ store := sampleStore, cache := cachePut emptyCache 200 "1" sampleUser } : BotState).store := by
  have hu : cacheGet (cachePut emptyCache 200 "1" sampleUser) 400 "1" = some sampleUser := by
    simp [cacheGet, cachePut, cache_ttl, emptyCache]
  have hacc : handle_claim sampleUser 400
      = .accepted { sampleUser with balance := 5, total_earned := 5, last_claim := 400 } := by
    simp only [handle_claim, sampleUser, claim_window, claim_amount]
    norm_num
  refine ⟨?_, ?_⟩
  · exact (cache_alias_mutation_then_store_write
      { store := sampleStore, cache := cachePut emptyCache 200 "1" sampleUser }
      400 "1" sampleUser
      { sampleUser with balance := 5, total_earned := 5, last_claim := 400 }
      hu rfl hacc).1
  · exact (cache_alias_mutation_then_store_write
      { store := sampleStore, cache := cachePut emptyCache 200 "1" sampleUser }
      400 "1" sampleUser
      { sampleUser with balance := 5, total_earned := 5, last_claim := 400 }
      hu rfl hacc).2.1

/-! ## C3: withdrawal eligibility -/

/-- Outcome of the withdrawal-eligibility check of `handle_withdraw`. -/
inductive WithdrawResult where
  | noWallet
  | insufficientReferrals (got need : Int)
  | insufficientBalance (got need : ℚ)
  | eligible (amountAfterFee : ℚ)
  deriving Repr, DecidableEq

/-- Model of `USDTBot.handle_withdraw` (bot.py lines 466-548) as a decision: it
checks, in order, a falsy wallet (`not user_data.get("wallet")`: absent or
empty string), then the referral count against `min_referrals`, then the
balance against `min_withdraw`; when all pass, the user is told they will
receive `balance - network_fee`.  The handler only sends messages — it never
calls `save_user` — so the bot state passes through unchanged. -/
def handle_withdraw (s : BotState) (u : UserData) : WithdrawResult × BotState :=
  if u.wallet.getD "" = "" then (.noWallet, s)
  else if u.referrals < min_referrals then
    (.insufficientReferrals u.referrals min_referrals, s)
  else if u.balance < min_withdraw then
    (.insufficientBalance u.balance min_withdraw, s)
  else (.eligible (u.balance - network_fee), s)

/-- C3: the eligibility check tests wallet, then referrals, then balance, in
that priority order: an unset wallet yields `noWallet` regardless of
balance and referrals; otherwise too few referrals dominate; otherwise an
insufficient balance; otherwise the user is eligible for
`balance - network_fee`.  The check never mutates the state. -/
theorem withdraw_eligibility_priority (s : BotState) (u : UserData) :
    (u.wallet = none → (handle_withdraw s u).1 = .noWallet) ∧
    (∀ w, u.wallet = some w → w ≠ "" →
      (u.referrals < min_referrals →
        (handle_withdraw s u).1 = .insufficientReferrals u.referrals min_referrals) ∧
      (min_referrals ≤ u.referrals → u.balance < min_withdraw →
        (handle_withdraw s u).1 = .insufficientBalance u.balance min_withdraw) ∧
      (min_referrals ≤ u.referrals → min_withdraw ≤ u.balance →
        (handle_withdraw s u).1 = .eligible (u.balance - network_fee))) ∧
    (handle_withdraw s u).2 = s := by
  refine ⟨fun hw => by simp [handle_withdraw, hw], fun w hw hne => ⟨?_, ?_, ?_⟩, ?_⟩
  · intro hr
    simp [handle_withdraw, hw, hne, hr]
  · intro hr hb
    simp [handle_withdraw, hw, hne, not_lt.mpr hr, hb]
  · intro hr hb
    simp [handle_withdraw, hw, hne, not_lt.mpr hr, not_lt.mpr hb]
  · unfold handle_withdraw
    split
    · rfl
    · split
      · rfl
      · split <;> rfl

/-- Witness for C3: the four outcomes at concrete accounts, including an
unset wallet with a huge balance and referral count. -/
theorem withdraw_eligibility_priority_witness :
    (handle_withdraw ⟨sampleStore, emptyCache⟩
        { sampleUser with balance := 1000, referrals := 50 }).1 = .noWallet ∧
    (handle_withdraw ⟨sampleStore, emptyCache⟩
        { sampleUser with wallet := some "TXYZ", balance := 1000, referrals := 3 }).1
      = .insufficientReferrals 3 10 ∧
    (handle_withdraw ⟨sampleStore, emptyCache⟩
        { sampleUser with wallet := some "TXYZ", balance := 50, referrals := 12 }).1
      = .insufficientBalance 50 100 ∧
    (handle_withdraw ⟨sampleStore, emptyCache⟩
        { sampleUser with wallet := some "TXYZ", balance := 150, referrals := 12 }).1
      = .eligible 137 ∧
    (handle_withdraw ⟨sampleStore, emptyCache⟩ sampleUser).2
      = ({ store := sampleStore, cache := emptyCache } : BotState) := by
  refine ⟨?_, ?_, ?_, ?_, ?_⟩
  · exact (withdraw_eligibility_priority ⟨sampleStore, emptyCache⟩
      { sampleUser with balance := 1000, referrals := 50 }).1 rfl
  · exact ((withdraw_eligibility_priority ⟨sampleStore, emptyCache⟩
      { sampleUser with wallet := some "TXYZ", balance := 1000, referrals := 3 }).2.1
      "TXYZ" rfl (by decide)).1 (by decide)
  · exact ((withdraw_eligibility_priority ⟨sampleStore, emptyCache⟩
      { sampleUser with wallet := some "TXYZ", balance := 50, referrals := 12 }).2.1
      "TXYZ" rfl (by decide)).2.1 (by decide) (by norm_num [min_withdraw])
  · have h := ((withdraw_eligibility_priority ⟨sampleStore, emptyCache⟩
      { sampleUser with wallet := some "TXYZ", balance := 150, referrals := 12 }).2.1
      "TXYZ" rfl (by decide)).2.2 (by decide) (by norm_num [min_withdraw])
    rw [h]
    norm_num [network_fee]
  · exact (withdraw_eligibility_priority ⟨sampleStore, emptyCache⟩ sampleUser).2.2

/-! ## C4 and C9: account creation and referral registration -/

/-- The new-user dict literal of `USDTBot.start` (bot.py lines 288-300):
balance and total_earned are seeded with the referral reward exactly when a
referrer was credited, the referral count starts at 0, and both cooldown
stamps and the join date are the creation time. -/
def mkNewUser (uid uname : String) (referred_by : Option String) (now : Int) : UserData :=
  { user_id := uid
    username := uname
    balance := if referred_by.isSome then referral_amount else 0
    total_earned := if referred_by.isSome then referral_amount else 0
    referrals := 0
    referred_by := referred_by
    last_claim := now
    last_daily := now
    wallet := none
    join_date := now }

/-- New-user path of `USDTBot.start` (bot.py lines 258-301), reached when
`get_user` found no account for `uid`: when a referrer argument
(`context.args[0]`) is present, differs from the new user's own id, and
resolves through `get_user`, the referrer is credited (`referrals + 1`,
balance and total_earned `+ referral_amount`) and saved; then the new
account is created and saved. -/
def start_new_user (s : BotState) (now : Int) (uid uname : String)
    (arg : Option String) : BotState :=
  let step :=
    match arg with
    | none => (none, s)
    | some rid =>
      if rid ≠ uid then
        match get_user s now rid with
        | (some rdata, s1) =>
          (some rid, save_user s1 now { rdata with
            referrals := rdata.referrals + 1
            balance := rdata.balance + referral_amount
            total_earned := rdata.total_earned + referral_amount })
        | (none, s1) => (none, s1)
      else (none, s)
  save_user step.2 now (mkNewUser uid uname step.1 now)

/-- Lookup via `get_user` never writes to the database: only the cache can change. -/
theorem get_user_store (s : BotState) (now : Int) (uid : String) :
    ((get_user s now uid).2).store = s.store := by
  unfold get_user
  cases cacheGet s.cache now uid
  · cases s.store uid <;> rfl
  · rfl

/-- C4: creating an account with a referrer id that resolves to an existing
distinct account performs exactly two mutations: the new account is seeded
with `balance = total_earned = referral_amount` and `referred_by = rid`,
and the referrer gains `referral_amount` on balance and total_earned and 1
on `referrals`; every other row is untouched.  A self-referral
(`rid = uid`) grants no bonus: the new account starts at 0, is not marked
as referred, and no other row (hence no referral count) changes. -/
theorem referral_registration_correct (s : BotState) (now : Int)
    (uid uname rid : String) (r : UserData)
    (hne : rid ≠ uid)
    (hres : (get_user s now rid).1 = some r)
    (hrid : r.user_id = rid)
    (hsr : s.store rid = some r)
    (hfresh : s.store uid = none) :
    ((start_new_user s now uid uname (some rid)).store uid
        = some (mkNewUser uid uname (some rid) now) ∧
      (start_new_user s now uid uname (some rid)).store rid
        = some { r with
            referrals := r.referrals + 1
            balance := r.balance + referral_amount
            total_earned := r.total_earned + referral_amount } ∧
      ∀ k, k ≠ uid → k ≠ rid →
        (start_new_user s now uid uname (some rid)).store k = s.store k) ∧
    (mkNewUser uid uname (some rid) now).balance = referral_amount ∧
    (mkNewUser uid uname (some rid) now).total_earned = referral_amount ∧
    (mkNewUser uid uname (some rid) now).referred_by = some rid ∧
    ((start_new_user s now uid uname (some uid)).store uid
        = some (mkNewUser uid uname none now) ∧
      (mkNewUser uid uname none now).balance = 0 ∧
      (mkNewUser uid uname none now).total_earned = 0 ∧
      (mkNewUser uid uname none now).referrals = 0 ∧
      ∀ k, k ≠ uid → (start_new_user s now uid uname (some uid)).store k = s.store k) := by
  have hself : start_new_user s now uid uname (some uid)
      = save_user s now (mkNewUser uid uname none now) := by
    unfold start_new_user
    simp
  have hst0 : (get_user s now rid).2.store = s.store := get_user_store s now rid
  rcases hg : get_user s now rid with ⟨o, s1⟩
  rw [hg] at hres hst0
  simp only [Prod.fst, Prod.snd] at hres hst0
  subst hres
  have hstep : start_new_user s now uid uname (some rid)
      = save_user
          (save_user s1 now { r with
            referrals := r.referrals + 1
            balance := r.balance + referral_amount
            total_earned := r.total_earned + referral_amount })
          now (mkNewUser uid uname (some rid) now) := by
    unfold start_new_user
    simp [hg, hne]
  refine ⟨⟨?_, ?_, ?_⟩, by simp [mkNewUser], by simp [mkNewUser], by simp [mkNewUser],
    ?_, by simp [mkNewUser], by simp [mkNewUser], by simp [mkNewUser], ?_⟩
  · rw [hstep]
    simp only [save_user]
    rw [hst0]
    simp [upsertRow, mkNewUser, hrid, Ne.symm hne, hfresh]
  · rw [hstep]
    simp only [save_user]
    rw [hst0]
    simp [upsertRow, mkNewUser, hrid, hne, hsr]
  · intro k hk1 hk2
    rw [hstep]
    simp only [save_user]
    rw [hst0]
    simp [upsertRow, mkNewUser, hrid, hk1, hk2]
  · rw [hself]
    simp only [save_user]
    simp [upsertRow, mkNewUser, hfresh]
  · intro k hk
    rw [hself]
    simp only [save_user]
    simp [upsertRow, mkNewUser, hk]

/-- A concrete referrer account used in witnesses. -/
def refUser : UserData :=
  { sampleUser with user_id := "2", username := "r", balance := 40
                    total_earned := 60, referrals := 4 }

/-- A one-row table holding `refUser`. -/
def refStore : Store := fun id => if id = "2" then some refUser else none

/-- Witness for C4 at a concrete referrer: user "7" signs up with referrer
"2" (and, in the self-referral part, with referrer "7"). -/
theorem referral_registration_correct_witness :
    (start_new_user ⟨refStore, emptyCache⟩ 500 "7" "bob" (some "2")).store "7"
      = some (mkNewUser "7" "bob" (some "2") 500) ∧
    (start_new_user ⟨refStore, emptyCache⟩ 500 "7" "bob" (some "2")).store "2"
      = some { refUser with
          referrals := refUser.referrals + 1
          balance := refUser.balance + referral_amount
          total_earned := refUser.total_earned + referral_amount } ∧
    (mkNewUser "7" "bob" (some "2") 500).balance = referral_amount ∧
    (start_new_user ⟨refStore, emptyCache⟩ 500 "7" "bob" (some "7")).store "7"
      = some (mkNewUser "7" "bob" none 500) ∧
    (mkNewUser "7" "bob" none 500).balance = 0 := by
  have h := referral_registration_correct ⟨refStore, emptyCache⟩ 500 "7" "bob" "2" refUser
    (by decide) rfl rfl rfl rfl
  exact ⟨h.1.1, h.1.2.1, h.2.1, h.2.2.2.2.1, h.2.2.2.2.2.1⟩

/-- C9: every account created by `start` has both cooldown stamps equal to
the creation time, so a claim attempt strictly within 5 minutes of account
creation and a daily attempt strictly within 24 hours of it are rejected:
a brand-new user can never claim or take the daily bonus immediately. -/
theorem new_account_claims_rejected (uid uname : String) (rb : Option String)
    (now t : Int) :
    (mkNewUser uid uname rb now).last_claim = now ∧
    (mkNewUser uid uname rb now).last_daily = now ∧
    (t - now < claim_window →
      handle_claim (mkNewUser uid uname rb now) t
        = .rejected (claim_window - (t - now))) ∧
    (t - now < daily_window →
      handle_daily (mkNewUser uid uname rb now) t
        = .rejected (daily_window - (t - now))) := by
  refine ⟨rfl, rfl, fun h => ?_, fun h => ?_⟩
  · simp [handle_claim, mkNewUser, h]
  · simp [handle_daily, mkNewUser, h]

/-- Witness for C9: an account created at time 1000 is refused a claim at
time 1200 and a daily bonus at time 5000. -/
theorem new_account_claims_rejected_witness :
    handle_claim (mkNewUser "9" "z" none 1000) 1200 = .rejected 100 ∧
    handle_daily (mkNewUser "9" "z" none 1000) 5000 = .rejected 82400 := by
  constructor
  · have h := (new_account_claims_rejected "9" "z" none 1000 1200).2.2.1 (by decide)
    rw [h]
    decide
  · have h := (new_account_claims_rejected "9" "z" none 1000 5000).2.2.2 (by decide)
    rw [h]
    decide

/-! ## C5: monotonicity of total_earned -/

/-- A ledger-mutating operation of the system applied to one account: a
claim or daily attempt at some time, the referrer side of a referral
registration (bot.py lines 266-275), a wallet update
(`save_wallet_address`), or an admin balance credit
(`handle_admin_add_balance`). -/
inductive Op where
  | claim (now : Int)
  | daily (now : Int)
  | referralBonus
  | walletSet (w : String)
  | adminAdd (amount : ℚ)

/-- Effect of one operation on the account record: rejected cooldown
attempts leave it unchanged, and a non-positive admin amount is refused. -/
def applyOp (u : UserData) : Op → UserData
  | .claim now =>
    match handle_claim u now with
    | .rejected _ => u
    | .accepted v => v
  | .daily now =>
    match handle_daily u now with
    | .rejected _ => u
    | .accepted v => v
  | .referralBonus => { u with
      referrals := u.referrals + 1
      balance := u.balance + referral_amount
      total_earned := u.total_earned + referral_amount }
  | .walletSet w => { u with wallet := some w }
  | .adminAdd a => if 0 < a then { u with balance := u.balance + a } else u

/-- A sequence of operations applied in order. -/
def applyOps (u : UserData) (ops : List Op) : UserData := ops.foldl applyOp u

/-- No single operation of the system decreases `total_earned`. -/
theorem applyOp_total_earned_mono (u : UserData) (op : Op) :
    u.total_earned ≤ (applyOp u op).total_earned := by
  cases op with
  | claim now =>
    by_cases h : now - u.last_claim < claim_window
    · simp [applyOp, handle_claim, h]
    · simp only [applyOp, handle_claim, if_neg h]
      have h5 : (0 : ℚ) ≤ claim_amount := by norm_num [claim_amount]
      exact le_add_of_nonneg_right h5
  | daily now =>
    by_cases h : now - u.last_daily < daily_window
    · simp [applyOp, handle_daily, h]
    · simp only [applyOp, handle_daily, if_neg h]
      have h25 : (0 : ℚ) ≤ daily_amount := by norm_num [daily_amount]
      exact le_add_of_nonneg_right h25
  | referralBonus =>
    have h10 : (0 : ℚ) ≤ referral_amount := by norm_num [referral_amount]
    exact le_add_of_nonneg_right h10
  | walletSet w => exact le_refl _
  | adminAdd a =>
    by_cases h : 0 < a
    · simp [applyOp, h]
    · simp [applyOp, h]

/-- C5: `total_earned` is non-decreasing across any sequence of claim,
daily, referral (and the remaining wallet/admin) operations, stays
non-negative when it starts non-negative, and starts non-negative on every
freshly created account. -/
theorem total_earned_monotone (u : UserData) (ops : List Op)
    (h0 : 0 ≤ u.total_earned) :
    u.total_earned ≤ (applyOps u ops).total_earned ∧
    0 ≤ (applyOps u ops).total_earned ∧
    (∀ op, u.total_earned ≤ (applyOp u op).total_earned) ∧
    ∀ uid uname rb now, 0 ≤ (mkNewUser uid uname rb now).total_earned := by
  have hmono : ∀ (ops : List Op) (v : UserData),
      v.total_earned ≤ (applyOps v ops).total_earned := by
    intro ops
    induction ops with
    | nil => intro v; simp [applyOps]
    | cons op rest ih =>
      intro v
      calc v.total_earned ≤ (applyOp v op).total_earned :=
            applyOp_total_earned_mono v op
        _ ≤ _ := ih (applyOp v op)
  refine ⟨hmono ops u, le_trans h0 (hmono ops u),
    fun op => applyOp_total_earned_mono u op, ?_⟩
  intro uid uname rb now
  cases rb <;> norm_num [mkNewUser, referral_amount]

/-- Witness for C5: a concrete three-operation run from a fresh account. -/
theorem total_earned_monotone_witness :
    sampleUser.total_earned
      ≤ (applyOps sampleUser [Op.claim 400, Op.daily 90000, Op.referralBonus]).total_earned ∧
    0 ≤ (applyOps sampleUser [Op.claim 400, Op.daily 90000, Op.referralBonus]).total_earned := by
  have h := total_earned_monotone sampleUser
    [Op.claim 400, Op.daily 90000, Op.referralBonus] (by norm_num [sampleUser])
  exact ⟨h.1, h.2.1⟩

/-! ## C10: admin add-balance -/

/-- A `get_user` miss leaves the state untouched. -/
theorem get_user_none (s : BotState) (now : Int) (uid : String)
    (h : (get_user s now uid).1 = none) : get_user s now uid = (none, s) := by
  unfold get_user at h ⊢
  cases hc : cacheGet s.cache now uid with
  | some u => simp [hc] at h
  | none =>
    simp only [hc]
    cases hs : s.store uid with
    | some u => simp [hc, hs] at h
    | none => simp [hs]

/-- Model of `USDTBot.handle_admin_add_balance` (bot.py lines 811-839): `amount` is
the result of parsing the admin-supplied string with `Decimal` (`none`
models a parse failure, which is caught and reported).  A parse failure, a
non-positive amount or an unknown target change nothing; otherwise only
`balance` grows and the record is saved — `total_earned` is not touched, so
admin credits never reach the leaderboard. -/
def handle_admin_add_balance (s : BotState) (now : Int) (target : String)
    (amount : Option ℚ) : BotState :=
  match amount with
  | none => s
  | some a =>
    if a ≤ 0 then s
    else
      match get_user s now target with
      | (none, s1) => s1
      | (some u, s1) => save_user s1 now { u with balance := u.balance + a }

/-- C10: for an existing target and a strictly positive amount the admin
credit increases `balance` by exactly that amount while every other field
of the target row — `total_earned`, `referrals`, cooldown stamps, wallet,
`referred_by`, `join_date` — and every other row stay unchanged; a
non-numeric amount, a non-positive amount, or an unknown target mutate
nothing. -/
theorem admin_add_balance_frame (s : BotState) (now : Int) (target : String)
    (a : ℚ) (u : UserData)
    (hpos : 0 < a)
    (hres : (get_user s now target).1 = some u)
    (huid : u.user_id = target)
    (hsu : s.store target = some u) :
    (handle_admin_add_balance s now target (some a)).store target
        = some { u with balance := u.balance + a } ∧
    (∀ k, k ≠ target →
      (handle_admin_add_balance s now target (some a)).store k = s.store k) ∧
    handle_admin_add_balance s now target none = s ∧
    (∀ b : ℚ, b ≤ 0 → handle_admin_add_balance s now target (some b) = s) ∧
    (∀ tgt, (get_user s now tgt).1 = none →
      handle_admin_add_balance s now tgt (some a) = s) := by
  have hst0 : (get_user s now target).2.store = s.store := get_user_store s now target
  rcases hg : get_user s now target with ⟨o, s1⟩
  rw [hg] at hres hst0
  simp only [Prod.fst, Prod.snd] at hres hst0
  subst hres
  have hmain : handle_admin_add_balance s now target (some a)
      = save_user s1 now { u with balance := u.balance + a } := by
    unfold handle_admin_add_balance
    simp [hg, not_le.mpr hpos]
  refine ⟨?_, ?_, rfl, ?_, ?_⟩
  · rw [hmain]
    simp only [save_user]
    rw [hst0]
    simp [upsertRow, huid, hsu]
  · intro k hk
    rw [hmain]
    simp only [save_user]
    rw [hst0]
    simp [upsertRow, huid, hk]
  · intro b hb
    unfold handle_admin_add_balance
    simp [hb]
  · intro tgt htgt
    have hg2 := get_user_none s now tgt htgt
    unfold handle_admin_add_balance
    simp [hg2, not_le.mpr hpos]

/-- Witness for C10: crediting 7 USDT to the existing user "1", plus the
refused non-numeric, non-positive and unknown-user cases. -/
theorem admin_add_balance_frame_witness :
    (handle_admin_add_balance ⟨sampleStore, emptyCache⟩ 300 "1" (some 7)).store "1"
      = some { sampleUser with balance := sampleUser.balance + 7 } ∧
    handle_admin_add_balance ⟨sampleStore, emptyCache⟩ 300 "1" none
      = ({ store := sampleStore, cache := emptyCache } : BotState) ∧
    handle_admin_add_balance ⟨sampleStore, emptyCache⟩ 300 "1" (some 0)
      = ({ store := sampleStore, cache := emptyCache } : BotState) ∧
    handle_admin_add_balance ⟨sampleStore, emptyCache⟩ 300 "99" (some 7)
      = ({ store := sampleStore, cache := emptyCache } : BotState) := by
  have h := admin_add_balance_frame ⟨sampleStore, emptyCache⟩ 300 "1" 7 sampleUser
    (by norm_num) rfl rfl rfl
  exact ⟨h.1, h.2.2.1, h.2.2.2.1 0 (by norm_num), h.2.2.2.2 "99" rfl⟩

/-! ## C6: notification scheduler (modelled from the spec) -/

/-- Reward types scanned by the notification scheduler. -/
inductive RewardType where
  | claim
  | daily
  deriving Repr, DecidableEq

/-- Modelled from the spec: the Notification Scheduler of spec §4.5 is
absent from `src/` (no background scan exists in `bot.py`); its
scheduler-local dedup cache maps `(user_id, reward_type)` to the time the
last notification for that pair was emitted. -/
abbrev DedupCache := String × RewardType → Option Int

/-- Modelled from the spec: the scheduler's eligibility scan predicate —
the account's cooldown stamp for the reward type is at least the reward
window old. -/
def schedEligible (u : UserData) (rt : RewardType) (now : Int) : Bool :=
  match rt with
  | .claim => decide (claim_window ≤ now - u.last_claim)
  | .daily => decide (daily_window ≤ now - u.last_daily)

/-- Modelled from the spec: per-account, per-reward-type step of a
scheduler iteration — if the account is eligible and the dedup cache holds
no stamp newer than the re-notify interval, emit one notification for
`(user_id, reward_type)` and stamp the dedup cache with the current time. -/
def notifyStep (renotify now : Int) (u : UserData) (rt : RewardType)
    (d : DedupCache) : List (String × RewardType) × DedupCache :=
  if schedEligible u rt now then
    match d (u.user_id, rt) with
    | some tlast =>
      if now - tlast < renotify then ([], d)
      else ([(u.user_id, rt)],
        fun k => if k = (u.user_id, rt) then some now else d k)
    | none => ([(u.user_id, rt)],
      fun k => if k = (u.user_id, rt) then some now else d k)
  else ([], d)

/-- Modelled from the spec: one scheduler iteration over a batch of
accounts, checking each account for both reward types and threading the
dedup cache through the batch. -/
def scanIteration (renotify now : Int) (accounts : List UserData)
    (d : DedupCache) : List (String × RewardType) × DedupCache :=
  match accounts with
  | [] => ([], d)
  | u :: rest =>
    let c := notifyStep renotify now u .claim d
    let dl := notifyStep renotify now u .daily c.2
    let r := scanIteration renotify now rest dl.2
    (c.1 ++ dl.1 ++ r.1, r.2)

/-- An eligible, unstamped pair gets exactly one notification and a fresh
dedup stamp. -/
theorem notifyStep_emits (renotify now : Int) (u : UserData) (rt : RewardType)
    (d : DedupCache) (he : schedEligible u rt now = true)
    (hd : d (u.user_id, rt) = none) :
    notifyStep renotify now u rt d
      = ([(u.user_id, rt)],
         fun k => if k = (u.user_id, rt) then some now else d k) := by
  simp [notifyStep, he, hd]

/-- A pair stamped within the re-notify interval is not re-notified. -/
theorem notifyStep_suppressed (renotify now tlast : Int) (u : UserData)
    (rt : RewardType) (d : DedupCache) (he : schedEligible u rt now = true)
    (hd : d (u.user_id, rt) = some tlast) (hre : now - tlast < renotify) :
    notifyStep renotify now u rt d = ([], d) := by
  simp [notifyStep, he, hd, hre]

/-- A step for one reward type neither notifies nor restamps any key of the
other reward type. -/
theorem notifyStep_other_type (renotify now : Int) (u : UserData)
    (rt rt2 : RewardType) (d : DedupCache) (x : String) (hne : rt2 ≠ rt) :
    ((notifyStep renotify now u rt2 d).1).count (x, rt) = 0 ∧
    (notifyStep renotify now u rt2 d).2 (x, rt) = d (x, rt) := by
  cases he : schedEligible u rt2 now with
  | false => simp [notifyStep, he]
  | true =>
    cases hd : d (u.user_id, rt2) with
    | none =>
      rw [notifyStep_emits renotify now u rt2 d he hd]
      exact ⟨by simp [List.count_cons, Ne.symm hne], by simp [Ne.symm hne]⟩
    | some tlast =>
      by_cases hre : now - tlast < renotify
      · rw [notifyStep_suppressed renotify now tlast u rt2 d he hd hre]
        simp
      · have hepair : notifyStep renotify now u rt2 d
            = ([(u.user_id, rt2)],
               fun k => if k = (u.user_id, rt2) then some now else d k) := by
          simp [notifyStep, he, hd, hre]
        rw [hepair]
        exact ⟨by simp [List.count_cons, Ne.symm hne], by simp [Ne.symm hne]⟩

/-- A one-account scheduler iteration unfolded. -/
theorem scanIteration_singleton (renotify now : Int) (u : UserData)
    (d : DedupCache) :
    scanIteration renotify now [u] d
      = ((notifyStep renotify now u RewardType.claim d).1
          ++ (notifyStep renotify now u RewardType.daily
              (notifyStep renotify now u RewardType.claim d).2).1,
         (notifyStep renotify now u RewardType.daily
            (notifyStep renotify now u RewardType.claim d).2).2) := by
  simp [scanIteration]

/-- C6: for an account whose cooldown for a reward type has elapsed
(eligible at both iteration times) and whose dedup key starts unstamped,
two consecutive scheduler iterations within the re-notify interval produce
exactly one outbound notification for that `(user_id, reward_type)` pair,
not two. -/
theorem scheduler_dedup_single_notification (renotify t1 t2 : Int)
    (u : UserData) (rt : RewardType) (d : DedupCache)
    (he1 : schedEligible u rt t1 = true)
    (he2 : schedEligible u rt t2 = true)
    (hre : t2 - t1 < renotify)
    (hd : d (u.user_id, rt) = none) :
    ((scanIteration renotify t1 [u] d).1
        ++ (scanIteration renotify t2 [u]
            (scanIteration renotify t1 [u] d).2).1).count
      (u.user_id, rt) = 1 := by
  cases rt with
  | claim =>
    have hc1 := notifyStep_emits renotify t1 u .claim d he1 hd
    have hdl1 := notifyStep_other_type renotify t1 u .claim .daily
      (notifyStep renotify t1 u .claim d).2 u.user_id (by decide)
    have hkey : (notifyStep renotify t1 u RewardType.daily
        (notifyStep renotify t1 u RewardType.claim d).2).2 (u.user_id, RewardType.claim)
        = some t1 := by
      rw [hdl1.2, hc1]
      simp
    have hc2 := notifyStep_suppressed renotify t2 t1 u .claim
      (notifyStep renotify t1 u RewardType.daily
        (notifyStep renotify t1 u RewardType.claim d).2).2 he2 hkey hre
    have hdl2 := notifyStep_other_type renotify t2 u .claim .daily
      (notifyStep renotify t2 u .claim
        (notifyStep renotify t1 u RewardType.daily
          (notifyStep renotify t1 u RewardType.claim d).2).2).2 u.user_id (by decide)
    have hcnt1 : (notifyStep renotify t1 u RewardType.claim d).1.count
        (u.user_id, RewardType.claim) = 1 := by
      rw [hc1]
      simp
    have hcnt2 : (notifyStep renotify t2 u RewardType.claim
        (notifyStep renotify t1 u RewardType.daily
          (notifyStep renotify t1 u RewardType.claim d).2).2).1.count
        (u.user_id, RewardType.claim) = 0 := by
      rw [hc2]
      simp
    simp only [scanIteration_singleton, List.count_append]
    rw [hcnt1, hcnt2, hdl1.1, hdl2.1]
  | daily =>
    have hc1 := notifyStep_other_type renotify t1 u .daily .claim d u.user_id (by decide)
    have hkey1 : (notifyStep renotify t1 u RewardType.claim d).2
        (u.user_id, RewardType.daily) = none := by
      rw [hc1.2, hd]
    have hdl1 := notifyStep_emits renotify t1 u .daily
      (notifyStep renotify t1 u RewardType.claim d).2 he1 hkey1
    have hc2 := notifyStep_other_type renotify t2 u .daily .claim
      (notifyStep renotify t1 u RewardType.daily
        (notifyStep renotify t1 u RewardType.claim d).2).2 u.user_id (by decide)
    have hkey2 : (notifyStep renotify t2 u RewardType.claim
        (notifyStep renotify t1 u RewardType.daily
          (notifyStep renotify t1 u RewardType.claim d).2).2).2
        (u.user_id, RewardType.daily) = some t1 := by
      rw [hc2.2, hdl1]
      simp
    have hdl2 := notifyStep_suppressed renotify t2 t1 u .daily
      (notifyStep renotify t2 u RewardType.claim
        (notifyStep renotify t1 u RewardType.daily
          (notifyStep renotify t1 u RewardType.claim d).2).2).2 he2 hkey2 hre
    have hcnt1 : (notifyStep renotify t1 u RewardType.daily
        (notifyStep renotify t1 u RewardType.claim d).2).1.count
        (u.user_id, RewardType.daily) = 1 := by
      rw [hdl1]
      simp
    have hcnt2 : (notifyStep renotify t2 u RewardType.daily
        (notifyStep renotify t2 u RewardType.claim
          (notifyStep renotify t1 u RewardType.daily
            (notifyStep renotify t1 u RewardType.claim d).2).2).2).1.count
        (u.user_id, RewardType.daily) = 0 := by
      rw [hdl2]
      simp
    simp only [scanIteration_singleton, List.count_append]
    rw [hcnt1, hcnt2, hc1.1, hc2.1]

/-- Witness for C6: `sampleUser` (cooldowns stamped at 0) scanned at times
1000 and 1030 with a 60-second re-notify interval and an empty dedup
cache gets exactly one claim notification. -/
theorem scheduler_dedup_single_notification_witness :
    ((scanIteration 60 1000 [sampleUser] (fun _ => none)).1
        ++ (scanIteration 60 1030 [sampleUser]
            (scanIteration 60 1000 [sampleUser] (fun _ => none)).2).1).count
      (sampleUser.user_id, RewardType.claim) = 1 :=
  scheduler_dedup_single_notification 60 1000 1030 sampleUser RewardType.claim
    (fun _ => none) (by decide) (by decide) (by decide) rfl

end USDTBot
